import Mathlib

/-!
Verification of the ArborTag backend aggregation and reporting pipeline.

The analyzer operations of services/analysis.py (class TreeAnalyzer) and
the document assembly of services/report_generator.py (class
ReportGenerator), together with the control flow of the
/api/generate-report handler in main.py, are embedded as pure Lean
functions over lists of tree records.  Numeric fields are modelled in
exact rational arithmetic; the pandas grouping and sorting primitives
(value_counts, mode, groupby with sorted keys, idxmax) are modelled by
the list functions below, following their documented behaviour.
-/

attribute [local semireducible] Rat.add Rat.mul Rat.inv Rat.sub Rat.ofScientific

/-! ## Code-point string order

Python compares strings lexicographically by Unicode code point; pandas
mode() returns its result sorted in that order and groupby(sort=True)
iterates keys in that order.  The Bool-valued functions below implement
that order structurally so that concrete instances evaluate. -/

/-- Key of a character: its Unicode code point, as a natural number. -/
def charKey (c : Char) : Nat := c.val.toNat

/-- Strict lexicographic order on lists of characters, by code point;
a proper prefix is smaller than the longer word. -/
def charListLtB : List Char → List Char → Bool
  | _, [] => false
  | [], _ :: _ => true
  | a :: as, b :: bs =>
    Nat.blt (charKey a) (charKey b) ||
      (charKey a == charKey b && charListLtB as bs)

/-- Strict code-point comparison of strings, as Python orders them. -/
def pyStrLt (a b : String) : Bool := charListLtB a.data b.data

/-- Non-strict code-point comparison of strings. -/
def pyStrLe (a b : String) : Bool := !(pyStrLt b a)

/-- The non-strict string order as a relation, for use with sorting. -/
def leRel (a b : String) : Prop := pyStrLe a b = true

instance : DecidableRel leRel :=
  fun a b => instDecidableEqBool (pyStrLe a b) true

/-! ## The typed record collection

Fields of models/schemas.py (class TreeData) that the aggregation reads.
Fields the Aggregator never touches (scientific name, coordinates, age,
date, time, notes, id, created_at) are omitted; carbon, height and width
are modelled as exact rationals. -/

/-- One tree record, with the fields TreeAnalyzer reads. -/
structure TreeRecord where
  species_id : Int
  common_name : String
  height : ℚ
  width : ℚ
  carbon_seq : ℚ
  oxygen_prod : Option ℚ
  location : String
deriving DecidableEq, Repr

/-- The list of common names of a record collection (the common_name
column of the DataFrame). -/
def commonNames (l : List TreeRecord) : List String :=
  l.map fun r => r.common_name

/-- Number of occurrences of a value in a list of strings (how often a
name appears in a column). -/
def countOcc (xs : List String) (n : String) : Nat :=
  xs.count n

/-- The largest occurrence count over the distinct values of a column. -/
def maxOcc (xs : List String) : Nat :=
  (xs.dedup.map (countOcc xs)).foldr max 0

/-- Model of pandas Series.mode: the most frequent values, sorted in
code-point order. -/
def sortedModes (xs : List String) : List String :=
  List.insertionSort leRel (xs.dedup.filter fun n => countOcc xs n = maxOcc xs)

/-- Occurrence count of a common name in a record collection (one cell
of value_counts). -/
def nameCount (l : List TreeRecord) (n : String) : Nat :=
  countOcc (commonNames l) n

/-- The distinct common names, in first-appearance order. -/
def distinctNames (l : List TreeRecord) : List String :=
  (commonNames l).dedup

/-- Descending-count order on (name, count) pairs: the key function of
sorted(..., key=lambda x: x[1], reverse=True) and the order of
value_counts. -/
def byCountDesc (a b : String × Nat) : Prop := b.2 ≤ a.2

instance : DecidableRel byCountDesc := fun a b => Nat.decLe b.2 a.2

instance : IsTotal (String × Nat) byCountDesc := ⟨fun a b => Nat.le_total b.2 a.2⟩

instance : IsTrans (String × Nat) byCountDesc := ⟨fun _ _ _ h1 h2 => Nat.le_trans h2 h1⟩

/-- Descending-value order on (name, carbon) pairs. -/
def byCarbonDesc (a b : String × ℚ) : Prop := b.2 ≤ a.2

instance : DecidableRel byCarbonDesc :=
  fun a b => inferInstanceAs (Decidable (b.2 ≤ a.2))

instance : IsTotal (String × ℚ) byCarbonDesc := ⟨fun a b => le_total b.2 a.2⟩

instance : IsTrans (String × ℚ) byCarbonDesc := ⟨fun _ _ _ h1 h2 => le_trans h2 h1⟩

/-- TreeAnalyzer.get_species_distribution:
self.df['common_name'].value_counts().to_dict().  One entry per distinct
common name with its occurrence count; value_counts lists entries by
descending count.  This typed embedding covers collections of
schema-conformant records whose frame carries the common_name column;
on an empty frame the column indexing raises KeyError instead, which
rawGet_species_distribution below models. -/
def get_species_distribution (l : List TreeRecord) : List (String × Nat) :=
  List.insertionSort byCountDesc ((distinctNames l).map fun n => (n, nameCount l n))

/-- Total carbon sequestration of the records carrying a given common
name (one cell of groupby('common_name')['carbon_seq'].sum()). -/
def sumCarbon (l : List TreeRecord) (n : String) : ℚ :=
  ((l.filter fun r => r.common_name = n).map fun r => r.carbon_seq).sum

/-- Mean carbon sequestration of the records carrying a given common
name (one cell of groupby('common_name')['carbon_seq'].mean()). -/
def meanCarbon (l : List TreeRecord) (n : String) : ℚ :=
  sumCarbon l n / nameCount l n

/-- The distinct common names in code-point order: the key order of
pandas groupby('common_name') with its default sort=True. -/
def sortedNames (l : List TreeRecord) : List String :=
  List.insertionSort leRel (distinctNames l)

/-- TreeAnalyzer.get_carbon_by_species:
groupby('common_name')['carbon_seq'].sum().to_dict(). -/
def get_carbon_by_species (l : List TreeRecord) : List (String × ℚ) :=
  (sortedNames l).map fun n => (n, sumCarbon l n)

/-- The series species_carbon = groupby('common_name')['carbon_seq'].mean()
of TreeAnalyzer.get_statistics. -/
def species_carbon (l : List TreeRecord) : List (String × ℚ) :=
  (sortedNames l).map fun n => (n, meanCarbon l n)

/-- Model of pandas Series.idxmax on a key-value series: the key of the
first occurrence of the maximal value. -/
def idxmaxPairs : List (String × ℚ) → Option String
  | [] => none
  | p :: ps => some ((ps.foldl (fun best q => if best.2 < q.2 then q else best) p).1)

/-- The most_common_species entry of TreeAnalyzer.get_statistics:
self.df['common_name'].mode()[0] if len(self.df) > 0 else 'N/A'. -/
def most_common_species (l : List TreeRecord) : String :=
  if 0 < l.length then (sortedModes (commonNames l)).headD "" else "N/A"

/-- The most_carbon_efficient entry of TreeAnalyzer.get_statistics:
species_carbon.idxmax() if len(species_carbon) > 0 else 'N/A'. -/
def most_carbon_efficient (l : List TreeRecord) : String :=
  (idxmaxPairs (species_carbon l)).getD "N/A"

/-- The Statistical View: the dict returned by
TreeAnalyzer.get_statistics.  The means of an empty collection are 0
here where pandas produces NaN; no claim concerns them. -/
structure Stats where
  total_trees : Nat
  total_carbon : ℚ
  total_oxygen : ℚ
  avg_height : ℚ
  avg_width : ℚ
  total_locations : Nat
  total_species : Nat
  most_common_species : String
  most_carbon_efficient : String
deriving DecidableEq, Repr

/-- TreeAnalyzer.get_statistics. -/
def get_statistics (l : List TreeRecord) : Stats where
  total_trees := l.length
  total_carbon := (l.map fun r => r.carbon_seq).sum
  total_oxygen := (l.filterMap fun r => r.oxygen_prod).sum
  avg_height := (l.map fun r => r.height).sum / l.length
  avg_width := (l.map fun r => r.width).sum / l.length
  total_locations := ((l.map fun r => r.location).dedup).length
  total_species := ((l.map fun r => r.species_id).dedup).length
  most_common_species := most_common_species l
  most_carbon_efficient := most_carbon_efficient l

/-! ## Numeric rendering

Python renders measurement values with format specifiers .2f and .1f
(round half to even at the given number of decimals) and truncates with
int().  These are modelled over exact rationals; the double-precision
rounding of the original coincides with the exact rounding on every
value the claims touch. -/

/-- Nearest integer, ties to even: the rounding of Python round() and of
the .Nf format specifiers. -/
def roundHalfEven (q : ℚ) : ℤ :=
  let f := Rat.floor q
  let frac := q - (f : ℚ)
  if frac < 1 / 2 then f
  else if 1 / 2 < frac then f + 1
  else if f % 2 = 0 then f else f + 1

/-- Python int() applied to a number: truncation toward zero. -/
def pyTrunc (q : ℚ) : ℤ :=
  if 0 ≤ q then Rat.floor q else -Rat.floor (-q)

/-- Modelled from the spec: the Python built-in round with no digit
argument, used by the claim formula round(total_trees * 0.2); it rounds
to the nearest integer, ties to even. -/
def pyRound (q : ℚ) : ℤ := roundHalfEven q

/-- The numeric value shown by the .1f format: the argument rounded to
one decimal place. -/
def round1 (q : ℚ) : ℚ := (roundHalfEven (q * 10) : ℚ) / 10

/-- Pads a digit string with leading zeros to the given width. -/
def padZeros (d : Nat) (s : String) : String :=
  String.mk (List.replicate (d - s.length) '0') ++ s

/-- The Python fixed-point format specifier .df. -/
def fmtF (d : Nat) (q : ℚ) : String :=
  let m := roundHalfEven (q * ((10 : ℚ) ^ d))
  if d = 0 then toString m
  else
    let a := m.natAbs
    (if m < 0 then "-" else "") ++ toString (a / 10 ^ d) ++ "." ++
      padZeros d (toString (a % 10 ^ d))

/-! ## The report assembler

ReportGenerator.generate_pdf_report, embedded as a pure function from
the statistics and the two secondary maps to the content of the
document.  Layout-only aspects (styles, column widths, page breaks) are
the business of the reportlab collaborator and are not modelled; the
document is represented by the data each section carries.  Python
exceptions that the body can raise are modelled with Except. -/

/-- A Python exception, as far as this code base can raise one. -/
inductive PyErr where
  | httpException (status : Nat) (detail : String)
  | zeroDivisionError
  | keyError (key : String)
  | valueError (msg : String)
deriving DecidableEq, Repr

instance {e a : Type} [DecidableEq e] [DecidableEq a] : DecidableEq (Except e a) := fun x y =>
  match x, y with
  | Except.ok u, Except.ok v => decidable_of_iff (u = v) (by simp)
  | Except.error u, Except.error v => decidable_of_iff (u = v) (by simp)
  | Except.ok _, Except.error _ => Decidable.isFalse (by intro h; cases h)
  | Except.error _, Except.ok _ => Decidable.isFalse (by intro h; cases h)

/-- str(e) of an exception, as interpolated into the detail of the
blanket except-handlers of main.py. -/
def strOfErr : PyErr → String
  | .httpException s d => toString s ++ ": " ++ d
  | .zeroDivisionError => "division by zero"
  | .keyError k => "'" ++ k ++ "'"
  | .valueError m => m

/-- The top-5 species-by-count ranking:
sorted(species_dist.items(), key=lambda x: x[1], reverse=True)[:5]. -/
def top5_species (species_dist : List (String × Nat)) : List (String × Nat) :=
  (List.insertionSort byCountDesc species_dist).take 5

/-- The top-5 species-by-total-carbon ranking:
sorted(carbon_data.items(), key=lambda x: x[1], reverse=True)[:5]. -/
def top5_carbon (carbon_data : List (String × ℚ)) : List (String × ℚ) :=
  (List.insertionSort byCarbonDesc carbon_data).take 5

/-- One data row of the species-analysis table:
[species, str(count), f-string of (count / total_trees) * 100 with .1f
and a percent sign].  Raises ZeroDivisionError when total_trees is 0,
as the Python division does. -/
def speciesRow (total_trees : Nat) (p : String × Nat) :
    Except PyErr (String × String × String) :=
  if total_trees = 0 then Except.error PyErr.zeroDivisionError
  else Except.ok (p.1, toString p.2, fmtF 1 (((p.2 : ℚ) / (total_trees : ℚ)) * 100) ++ "%")

/-- The data rows of the species-analysis table. -/
def speciesRows (total_trees : Nat) :
    List (String × Nat) → Except PyErr (List (String × String × String))
  | [] => Except.ok []
  | p :: ps => do
    let row ← speciesRow total_trees p
    let rest ← speciesRows total_trees ps
    Except.ok (row :: rest)

/-- The parameterized values of the recommendations section. -/
structure Recommendations where
  total_trees : Nat
  total_locations : Nat
  total_species : Nat
  diversity_qualifier : String
  carbon_champion : String
  additional_trees : ℤ
  additional_carbon : String
deriving DecidableEq, Repr

/-- The content of the generated report document, section by section:
title, generation line, executive-summary key/value rows, species
narrative, species-analysis data rows, environmental-impact narrative,
carbon-by-species data rows, recommendations, footer.  Table header
rows are presentational and not repeated here. -/
structure Document where
  title : String
  date_line : String
  summary_rows : List (String × String)
  species_narrative : String
  species_table : List (String × String × String)
  carbon_text : String
  carbon_table : List (String × String)
  recommendations : Recommendations
  footer : String
deriving DecidableEq, Repr

/-- ReportGenerator.generate_pdf_report.  The wall-clock timestamp of
datetime.now() is passed in as the string now. -/
def generate_pdf_report (stats : Stats) (species_dist : List (String × Nat))
    (carbon_data : List (String × ℚ)) (location : Option String) (now : String) :
    Except PyErr Document := do
  let title := "Tree Census Report - " ++
    (match location with | some loc => loc | none => "All Locations")
  let summary_rows := [
    ("Total Trees Tagged", toString stats.total_trees),
    ("Total Carbon Sequestration", fmtF 2 stats.total_carbon ++ " kg CO₂/year"),
    ("Total Oxygen Production", fmtF 2 stats.total_oxygen ++ " kg/year"),
    ("Average Tree Height", fmtF 2 stats.avg_height ++ " meters"),
    ("Average Tree Width", fmtF 2 stats.avg_width ++ " meters"),
    ("Number of Locations", toString stats.total_locations),
    ("Number of Species", toString stats.total_species),
    ("Most Common Species", stats.most_common_species),
    ("Most Carbon Efficient", stats.most_carbon_efficient)]
  let species_narrative :=
    "A total of " ++ toString species_dist.length ++
    " different species were recorded. The most abundant species is " ++
    stats.most_common_species ++
    ", representing a significant portion of the urban forest canopy."
  let rows ← speciesRows stats.total_trees (top5_species species_dist)
  let carbon_text :=
    "The trees surveyed sequester a total of " ++ fmtF 2 stats.total_carbon ++
    " kg of CO₂ per year, which is equivalent to offsetting the carbon emissions of approximately " ++
    fmtF 2 (stats.total_carbon / 10000) ++ " cars annually. Additionally, these trees produce " ++
    fmtF 2 stats.total_oxygen ++ " kg of oxygen per year."
  let carbon_rows := (top5_carbon carbon_data).map fun p => (p.1, fmtF 2 p.2)
  let recs : Recommendations := {
    total_trees := stats.total_trees
    total_locations := stats.total_locations
    total_species := stats.total_species
    diversity_qualifier :=
      if 10 < stats.total_species then "excellent"
      else if 5 < stats.total_species then "good"
      else "needs improvement"
    carbon_champion := stats.most_carbon_efficient
    additional_trees := pyTrunc ((stats.total_trees : ℚ) * 0.2)
    additional_carbon := fmtF 2 (stats.total_carbon * 0.2) }
  Except.ok {
    title := title
    date_line := "Generated on: " ++ now
    summary_rows := summary_rows
    species_narrative := species_narrative
    species_table := rows
    carbon_text := carbon_text
    carbon_table := carbon_rows
    recommendations := recs
    footer := "Generated by ArborTag © 2024 NatureMarkSystems LLP" }

/-! ## The report endpoint

The body of the /api/generate-report handler of main.py sits inside a
blanket try/except whose handler raises
HTTPException(status_code=500, detail=str(e)).  fastapi.HTTPException is
a subclass of Exception, so the handler also catches the
HTTPException(404) the body raises for an empty fetch result. -/

/-- The try-block of generate_report in main.py, after the records have
been fetched: reject an empty collection with a 404 HTTPException, else
build the document and hand it to the Document Sink (whose returned URL
is passed in as upload_url). -/
def generate_report_body (trees : List TreeRecord) (location : String)
    (now upload_url : String) : Except PyErr (String × Document) := do
  if trees.length = 0 then
    Except.error (PyErr.httpException 404 "No data found")
  else
    let doc ← generate_pdf_report (get_statistics trees)
      (get_species_distribution trees) (get_carbon_by_species trees)
      (some location) now
    Except.ok (upload_url, doc)

/-- The /api/generate-report handler: the try-block wrapped in
except Exception as e: raise HTTPException(status_code=500, detail=str(e)). -/
def generate_report (trees : List TreeRecord) (location : String)
    (now upload_url : String) : Except PyErr (String × Document) :=
  match generate_report_body trees location now upload_url with
  | Except.ok r => Except.ok r
  | Except.error e => Except.error (PyErr.httpException 500 (strOfErr e))

/-! ## The raw record collection

TreeAnalyzer receives the rows the Record Store returns as plain dicts;
nothing validates them before pd.DataFrame(trees) is built.  A key that
a dict lacks becomes a NaN cell in the frame; a column missing from
every dict does not exist and indexing it raises KeyError.  The pandas
reductions used by get_statistics all run with their default
skipna=True, dropping NaN cells.  That untyped view is modelled here
with Option-valued fields (none is a missing key / NaN cell). -/

/-- One raw row as fetched from the Record Store, before any
validation; none marks a missing field. -/
structure RawRecord where
  species_id : Option Int
  common_name : Option String
  height : Option ℚ
  width : Option ℚ
  carbon_seq : Option ℚ
  oxygen_prod : Option ℚ
  location : Option String
deriving DecidableEq, Repr

/-- Accessing df[name]: succeeds when at least one row carries the
field (the column exists), else raises KeyError(name). -/
def requireColumn {α : Type} (l : List RawRecord) (f : RawRecord → Option α)
    (name : String) : Except PyErr Unit :=
  if l.any fun r => (f r).isSome then Except.ok () else Except.error (PyErr.keyError name)

/-- Column sum with skipna=True: missing cells are silently dropped. -/
def optSum (xs : List (Option ℚ)) : ℚ := (xs.filterMap id).sum

/-- Column mean with skipna=True; none is the NaN of an all-missing
column. -/
def optMean (xs : List (Option ℚ)) : Option ℚ :=
  let p := xs.filterMap id
  if p.length = 0 then none else some (p.sum / p.length)

/-- Column nunique: counts distinct non-missing values. -/
def optNunique {α : Type} [DecidableEq α] (xs : List (Option α)) : Nat :=
  (xs.filterMap id).dedup.length

/-- The skipna sum of the carbon_seq column: a row with no carbon_seq
contributes nothing. -/
def rawTotalCarbon (l : List RawRecord) : ℚ :=
  optSum (l.map fun r => r.carbon_seq)

/-- The Statistical View computed from raw rows; none stands for a NaN
mean. -/
structure RawStats where
  total_trees : Nat
  total_carbon : ℚ
  total_oxygen : ℚ
  avg_height : Option ℚ
  avg_width : Option ℚ
  total_locations : Nat
  total_species : Nat
  most_common_species : String
  most_carbon_efficient : String
deriving DecidableEq, Repr

/-- Series.idxmax over a key/value series with NaN values skipped; on an
all-NaN series pandas raises. -/
def rawIdxmax (pairs : List (String × Option ℚ)) : Except PyErr String :=
  match pairs.filterMap (fun p => p.2.map fun v => (p.1, v)) with
  | [] => Except.error (PyErr.valueError "attempt to get argmax of an empty sequence")
  | p :: ps => Except.ok ((ps.foldl (fun best q => if best.2 < q.2 then q else best) p).1)

/-- TreeAnalyzer.get_statistics on the raw, unvalidated rows, with the
pandas missing-data semantics spelled out. -/
def rawGet_statistics (l : List RawRecord) : Except PyErr RawStats := do
  let _ ← requireColumn l (fun r => r.carbon_seq) "carbon_seq"
  let oxygen := if l.any (fun r => r.oxygen_prod.isSome) then
      optSum (l.map fun r => r.oxygen_prod) else 0
  let _ ← requireColumn l (fun r => r.height) "height"
  let _ ← requireColumn l (fun r => r.width) "width"
  let _ ← requireColumn l (fun r => r.location) "location"
  let _ ← requireColumn l (fun r => r.species_id) "species_id"
  let _ ← requireColumn l (fun r => r.common_name) "common_name"
  let validNames := (l.map fun r => r.common_name).filterMap id
  let mcs ← if 0 < l.length then
      match sortedModes validNames with
      | [] => Except.error (PyErr.keyError "0")
      | m :: _ => Except.ok m
    else Except.ok "N/A"
  let keys := List.insertionSort leRel validNames.dedup
  let pairs := keys.map fun k =>
    (k, optMean ((l.filter fun r => r.common_name = some k).map fun r => r.carbon_seq))
  let mce ← if 0 < keys.length then rawIdxmax pairs else Except.ok "N/A"
  Except.ok {
    total_trees := l.length
    total_carbon := rawTotalCarbon l
    total_oxygen := oxygen
    avg_height := optMean (l.map fun r => r.height)
    avg_width := optMean (l.map fun r => r.width)
    total_locations := optNunique (l.map fun r => r.location)
    total_species := optNunique (l.map fun r => r.species_id)
    most_common_species := mcs
    most_carbon_efficient := mce }

/-- TreeAnalyzer.get_species_distribution on the raw, unvalidated rows:
self.df['common_name'].value_counts().to_dict().  Indexing the
common_name column of a frame built from zero rows (or from rows none
of which carry the field) raises KeyError, since that frame has no such
column; otherwise value_counts counts the non-missing names, listed by
descending count. -/
def rawGet_species_distribution (l : List RawRecord) :
    Except PyErr (List (String × Nat)) := do
  let _ ← requireColumn l (fun r => r.common_name) "common_name"
  let names := (l.map fun r => r.common_name).filterMap id
  Except.ok (List.insertionSort byCountDesc (names.dedup.map fun n => (n, countOcc names n)))

/-! ## Concrete sample data used by the individual verification results -/

/-- An oak record with carbon 10 (the first record of the worked example
of the spec). -/
def oakA : TreeRecord :=
  { species_id := 1, common_name := "Oak", height := 10, width := 2,
    carbon_seq := 10, oxygen_prod := none, location := "Central Park" }

/-- An oak record with carbon 20. -/
def oakB : TreeRecord :=
  { species_id := 1, common_name := "Oak", height := 12, width := 2,
    carbon_seq := 20, oxygen_prod := none, location := "Central Park" }

/-- A pine record with carbon 5. -/
def pineA : TreeRecord :=
  { species_id := 2, common_name := "Pine", height := 8, width := 2,
    carbon_seq := 5, oxygen_prod := none, location := "Central Park" }

/-- The three-record collection of the worked example. -/
def treesC5 : List TreeRecord := [oakA, oakB, pineA]

/-- Six records of six distinct species, one tree each. -/
def sixTrees : List TreeRecord :=
  [{ species_id := 1, common_name := "Ash", height := 5, width := 1,
     carbon_seq := 1, oxygen_prod := none, location := "Park" },
   { species_id := 2, common_name := "Beech", height := 5, width := 1,
     carbon_seq := 1, oxygen_prod := none, location := "Park" },
   { species_id := 3, common_name := "Cedar", height := 5, width := 1,
     carbon_seq := 1, oxygen_prod := none, location := "Park" },
   { species_id := 4, common_name := "Dogwood", height := 5, width := 1,
     carbon_seq := 1, oxygen_prod := none, location := "Park" },
   { species_id := 5, common_name := "Elm", height := 5, width := 1,
     carbon_seq := 1, oxygen_prod := none, location := "Park" },
   { species_id := 6, common_name := "Fir", height := 5, width := 1,
     carbon_seq := 1, oxygen_prod := none, location := "Park" }]

/-- A six-entry species distribution used to exercise the top-5 cut. -/
def distW : List (String × Nat) :=
  [("A", 1), ("B", 7), ("C", 3), ("D", 9), ("E", 2), ("F", 5)]

/-- A six-entry carbon-by-species map used to exercise the top-5 cut. -/
def carbW : List (String × ℚ) :=
  [("A", 1), ("B", 7), ("C", 3), ("D", 9), ("E", 2), ("F", 5)]

/-- A raw row with every field present. -/
def rawOak : RawRecord :=
  { species_id := some 1, common_name := some "Oak", height := some 10,
    width := some 2, carbon_seq := some 10, oxygen_prod := none,
    location := some "Central Park" }

/-- A raw row whose carbon_seq field is missing. -/
def rawNoCarbon : RawRecord :=
  { species_id := some 2, common_name := some "Pine", height := some 8,
    width := some 1, carbon_seq := none, oxygen_prod := none,
    location := some "Central Park" }

/-! ## Properties of the code-point order -/

/-- The strict character-list order is asymmetric. -/
theorem charListLtB_asymm : ∀ x y, charListLtB x y = true → charListLtB y x = false := by
  intro x
  induction x with
  | nil =>
    intro y h
    cases y with
    | nil => simp [charListLtB] at h
    | cons b bs => rfl
  | cons a as ih =>
    intro y h
    cases y with
    | nil => simp [charListLtB] at h
    | cons b bs =>
      rw [← Bool.not_eq_true]
      intro hc
      simp only [charListLtB, Bool.or_eq_true, Bool.and_eq_true, Nat.blt_eq,
        beq_iff_eq] at h hc
      rcases h with h | ⟨he, hlt⟩ <;> rcases hc with hc | ⟨hce, hclt⟩
      · omega
      · omega
      · omega
      · rw [ih bs hlt] at hclt
        cases hclt

/-- The strict character-list order is cotransitive: a witness of
x < z is below or above any third list. -/
theorem charListLtB_cotrans :
    ∀ x y z, charListLtB x z = true → charListLtB x y = true ∨ charListLtB y z = true := by
  intro x
  induction x with
  | nil =>
    intro y z h
    cases z with
    | nil => simp [charListLtB] at h
    | cons c cs =>
      cases y with
      | nil => right; rfl
      | cons b bs => left; rfl
  | cons a as ih =>
    intro y z h
    cases z with
    | nil => simp [charListLtB] at h
    | cons c cs =>
      cases y with
      | nil => right; rfl
      | cons b bs =>
        simp only [charListLtB, Bool.or_eq_true, Bool.and_eq_true, Nat.blt_eq,
          beq_iff_eq] at h ⊢
        rcases h with h | ⟨he, hlt⟩
        · rcases Nat.lt_trichotomy (charKey a) (charKey b) with hab | hab | hab
          · exact Or.inl (Or.inl hab)
          · exact Or.inr (Or.inl (by omega))
          · exact Or.inr (Or.inl (by omega))
        · rcases Nat.lt_trichotomy (charKey a) (charKey b) with hab | hab | hab
          · exact Or.inl (Or.inl hab)
          · rcases ih bs cs hlt with h1 | h1
            · exact Or.inl (Or.inr ⟨hab, h1⟩)
            · exact Or.inr (Or.inr ⟨by omega, h1⟩)
          · exact Or.inr (Or.inl (by omega))

/-- Asymmetry, at the level of strings. -/
theorem pyStrLt_asymm {a b : String} (h : pyStrLt a b = true) : pyStrLt b a = false :=
  charListLtB_asymm a.data b.data h

/-- Irreflexivity of the strict string order. -/
theorem pyStrLt_irrefl (a : String) : pyStrLt a a = false := by
  cases hv : pyStrLt a a
  · rfl
  · have h2 := pyStrLt_asymm hv
    rw [hv] at h2
    cases h2

/-- The non-strict string order is reflexive. -/
theorem leRel_refl (a : String) : leRel a a := by
  simp [leRel, pyStrLe, pyStrLt_irrefl]

instance : IsTotal String leRel := ⟨by
  intro a b
  cases hv : pyStrLt b a
  · exact Or.inl (by simp [leRel, pyStrLe, hv])
  · exact Or.inr (by simp [leRel, pyStrLe, pyStrLt_asymm hv])⟩

instance : IsTrans String leRel := ⟨by
  intro a b c hab hbc
  simp only [leRel, pyStrLe, Bool.not_eq_true'] at hab hbc ⊢
  cases hv : pyStrLt c a
  · rfl
  · exfalso
    rcases charListLtB_cotrans c.data b.data a.data hv with h1 | h1
    · have h2 : pyStrLt c b = true := h1
      rw [hbc] at h2
      cases h2
    · have h2 : pyStrLt b a = true := h1
      rw [hab] at h2
      cases h2⟩

/-- Transitivity of the non-strict string order, in applied form. -/
theorem leRel_trans {a b c : String} (h1 : leRel a b) (h2 : leRel b c) : leRel a c :=
  IsTrans.trans a b c h1 h2

/-- The head of the code-point-sorted copy of a non-empty list is one of
its elements and is below all of them. -/
theorem headD_insertionSort_least (xs : List String) (hne : xs ≠ []) :
    (List.insertionSort leRel xs).headD "" ∈ xs ∧
      ∀ x ∈ xs, leRel ((List.insertionSort leRel xs).headD "") x := by
  have hp := List.perm_insertionSort leRel xs
  have hs := List.sorted_insertionSort leRel xs
  cases hsort : List.insertionSort leRel xs with
  | nil =>
    rw [hsort] at hp
    exact absurd hp.symm.eq_nil hne
  | cons a t =>
    rw [hsort] at hp hs
    refine ⟨hp.mem_iff.mp (List.mem_cons_self a t), ?_⟩
    intro x hx
    have hx2 : x ∈ a :: t := hp.mem_iff.mpr hx
    rcases List.mem_cons.mp hx2 with rfl | hx3
    · exact leRel_refl x
    · exact List.rel_of_sorted_cons hs x hx3

/-- Behaviour of the idxmax fold on a series whose keys are sorted: the
result is an entry of the series, its value is maximal, and among the
entries attaining the maximum its key is the least. -/
theorem foldl_idxmax_spec :
    ∀ (ps : List (String × ℚ)) (p : String × ℚ),
      List.Pairwise (fun x y : String × ℚ => leRel x.1 y.1) (p :: ps) →
      (ps.foldl (fun best q => if best.2 < q.2 then q else best) p) ∈ p :: ps ∧
      (∀ q ∈ p :: ps, q.2 ≤ (ps.foldl (fun best q => if best.2 < q.2 then q else best) p).2) ∧
      (∀ q ∈ p :: ps, q.2 = (ps.foldl (fun best q => if best.2 < q.2 then q else best) p).2 →
        leRel (ps.foldl (fun best q => if best.2 < q.2 then q else best) p).1 q.1) := by
  intro ps
  induction ps with
  | nil =>
    intro p _
    refine ⟨List.mem_cons_self p [], ?_, ?_⟩
    · intro q hq
      rcases List.mem_cons.mp hq with rfl | hq2
      · exact le_refl _
      · cases hq2
    · intro q hq _
      rcases List.mem_cons.mp hq with rfl | hq2
      · exact leRel_refl _
      · cases hq2
  | cons q0 ps ih =>
    intro p hpw
    have hrel := (List.pairwise_cons.mp hpw).1
    have htail := (List.pairwise_cons.mp hpw).2
    have hpq0 : leRel p.1 q0.1 := hrel q0 (List.mem_cons_self q0 ps)
    have hstep : List.Pairwise (fun x y : String × ℚ => leRel x.1 y.1)
        ((if p.2 < q0.2 then q0 else p) :: ps) := by
      by_cases hlt : p.2 < q0.2
      · rw [if_pos hlt]; exact htail
      · rw [if_neg hlt]
        exact List.pairwise_cons.mpr
          ⟨fun x hx => hrel x (List.mem_cons_of_mem q0 hx),
            (List.pairwise_cons.mp htail).2⟩
    have hfold : (q0 :: ps).foldl (fun best q => if best.2 < q.2 then q else best) p
        = ps.foldl (fun best q => if best.2 < q.2 then q else best)
            (if p.2 < q0.2 then q0 else p) := rfl
    obtain ⟨hmem, hbound, hties⟩ := ih (if p.2 < q0.2 then q0 else p) hstep
    rw [hfold]
    set r := ps.foldl (fun best q => if best.2 < q.2 then q else best)
      (if p.2 < q0.2 then q0 else p) with hr
    have hstep_le : (if p.2 < q0.2 then q0 else p).2 ≤ r.2 :=
      hbound _ (List.mem_cons_self _ _)
    refine ⟨?_, ?_, ?_⟩
    · rcases List.mem_cons.mp hmem with hm | hm
      · by_cases hlt : p.2 < q0.2
        · rw [if_pos hlt] at hm
          rw [hm]
          exact List.mem_cons_of_mem p (List.mem_cons_self q0 ps)
        · rw [if_neg hlt] at hm
          rw [hm]
          exact List.mem_cons_self p (q0 :: ps)
      · exact List.mem_cons_of_mem p (List.mem_cons_of_mem q0 hm)
    · intro q hq
      rcases List.mem_cons.mp hq with rfl | hq2
      · by_cases hlt : q.2 < q0.2
        · rw [if_pos hlt] at hstep_le
          exact le_trans (le_of_lt hlt) hstep_le
        · rw [if_neg hlt] at hstep_le
          exact hstep_le
      · rcases List.mem_cons.mp hq2 with rfl | hq3
        · by_cases hlt : p.2 < q.2
          · rw [if_pos hlt] at hstep_le
            exact hstep_le
          · rw [if_neg hlt] at hstep_le
            exact le_trans (le_of_not_lt hlt) hstep_le
        · exact hbound q (List.mem_cons_of_mem _ hq3)
    · intro q hq heq
      rcases List.mem_cons.mp hq with rfl | hq2
      · by_cases hlt : q.2 < q0.2
        · exfalso
          rw [if_pos hlt] at hstep_le
          have : q.2 < r.2 := lt_of_lt_of_le hlt hstep_le
          rw [heq] at this
          exact lt_irrefl _ this
        · have hq_is_step : (if q.2 < q0.2 then q0 else q) = q := if_neg hlt
          have h1 := hties (if q.2 < q0.2 then q0 else q) (List.mem_cons_self _ _)
          rw [hq_is_step] at h1
          exact h1 heq
      · rcases List.mem_cons.mp hq2 with rfl | hq3
        · by_cases hlt : p.2 < q.2
          · have hq_is_step : (if p.2 < q.2 then q else p) = q := if_pos hlt
            have h1 := hties (if p.2 < q.2 then q else p) (List.mem_cons_self _ _)
            rw [hq_is_step] at h1
            exact h1 heq
          · -- the step kept p: q.2 ≤ p.2 ≤ r.2 = q.2 forces p tied as well
            rw [if_neg hlt] at hstep_le hties hmem
            have hple : p.2 ≤ r.2 := hstep_le
            have hqp : q.2 ≤ p.2 := le_of_not_lt hlt
            have hpr : p.2 = r.2 := le_antisymm hple (by rw [← heq]; exact hqp)
            have h1 : leRel r.1 p.1 := hties p (List.mem_cons_self _ _) hpr
            exact leRel_trans h1 hpq0
        · exact hties q (List.mem_cons_of_mem _ hq3) heq

/-- The maximum fold over a non-empty list of naturals lands on one of
its elements. -/
theorem foldr_max_mem : ∀ (xs : List Nat), xs ≠ [] → xs.foldr max 0 ∈ xs
  | [x], _ => by
    simp [List.foldr]
  | x :: y :: ys, _ => by
    have ih := foldr_max_mem (y :: ys) (by simp)
    show max x ((y :: ys).foldr max 0) ∈ x :: y :: ys
    rcases Nat.le_total ((y :: ys).foldr max 0) x with h | h
    · rw [Nat.max_eq_left h]
      exact List.mem_cons_self _ _
    · rw [Nat.max_eq_right h]
      exact List.mem_cons_of_mem _ ih

/-- Every element is below the maximum fold. -/
theorem le_foldr_max (xs : List Nat) : ∀ x ∈ xs, x ≤ xs.foldr max 0 := by
  induction xs with
  | nil => intro x hx; cases hx
  | cons a t ih =>
    intro x hx
    rcases List.mem_cons.mp hx with rfl | hx2
    · exact Nat.le_max_left _ _
    · exact le_trans (ih x hx2) (Nat.le_max_right _ _)

/-- The first entry of the sorted mode list of a non-empty column: it is
a distinct value of maximal occurrence count, and it is the least such
value in code-point order. -/
theorem sortedModes_spec (xs : List String) (hne : xs ≠ []) :
    (sortedModes xs).headD "" ∈ xs.dedup ∧
      countOcc xs ((sortedModes xs).headD "") = maxOcc xs ∧
      ∀ n ∈ xs.dedup, countOcc xs n = maxOcc xs → leRel ((sortedModes xs).headD "") n := by
  have hded : xs.dedup ≠ [] := by
    simpa [List.dedup_eq_nil] using hne
  have hmap : (xs.dedup.map (countOcc xs)) ≠ [] := by
    simpa using hded
  have hmem := foldr_max_mem (xs.dedup.map (countOcc xs)) hmap
  rw [show (xs.dedup.map (countOcc xs)).foldr max 0 = maxOcc xs from rfl] at hmem
  obtain ⟨n0, hn0, hcnt⟩ := List.mem_map.mp hmem
  have hfilt : n0 ∈ xs.dedup.filter fun n => countOcc xs n = maxOcc xs := by
    rw [List.mem_filter]
    exact ⟨hn0, by simp [hcnt]⟩
  have hfiltne : (xs.dedup.filter fun n => countOcc xs n = maxOcc xs) ≠ [] :=
    List.ne_nil_of_mem hfilt
  obtain ⟨hhead_mem, hhead_le⟩ := headD_insertionSort_least _ hfiltne
  rw [show List.insertionSort leRel (xs.dedup.filter fun n => countOcc xs n = maxOcc xs)
      = sortedModes xs from rfl] at hhead_mem hhead_le
  have hhm := List.mem_filter.mp hhead_mem
  refine ⟨hhm.1, by simpa using hhm.2, ?_⟩
  intro n hn hcn
  exact hhead_le n (List.mem_filter.mpr ⟨hn, by simp [hcn]⟩)

/-- Splitting one distinguished summand out of a sum over a duplicate-free
list. -/
theorem sum_map_add_single {β M : Type} [DecidableEq β] [AddCommMonoid M]
    (L : List β) (hnd : L.Nodup) (k : β) (hk : k ∈ L) (x : M) (h : β → M) :
    (L.map fun b => (if b = k then x else 0) + h b).sum = x + (L.map h).sum := by
  induction L with
  | nil => cases hk
  | cons c cs ih =>
    rcases List.mem_cons.mp hk with rfl | hk2
    · have hnotin : k ∉ cs := (List.nodup_cons.mp hnd).1
      have hmap : (cs.map fun b => (if b = k then x else 0) + h b) = cs.map h := by
        apply List.map_congr_left
        intro b hb
        have hbk : b ≠ k := fun hbk => hnotin (hbk ▸ hb)
        rw [if_neg hbk, zero_add]
      simp only [List.map_cons, List.sum_cons, hmap]
      simp [add_assoc]
    · have hne : c ≠ k := by
        rintro rfl
        exact (List.nodup_cons.mp hnd).1 hk2
      simp only [List.map_cons, List.sum_cons, if_neg hne, zero_add]
      rw [ih (List.nodup_cons.mp hnd).2 hk2, ← add_assoc, add_comm (h c) x, add_assoc]

/-- Fubini for grouping: summing a weight over the fibers of a key
function, one fiber per distinct key, recovers the total weight.  This
is the abstract fact behind the groupby aggregations. -/
theorem sum_dedup_fiber {α β M : Type} [DecidableEq β] [AddCommMonoid M]
    (f : α → β) (g : α → M) :
    ∀ l : List α,
      (((l.map f).dedup).map fun b => ((l.filter fun a => f a = b).map g).sum).sum
        = (l.map g).sum := by
  intro l
  induction l with
  | nil => simp
  | cons a t ih =>
    have hfib : ∀ b : β, (((a :: t).filter fun x => f x = b).map g).sum
        = (if b = f a then g a else 0) + ((t.filter fun x => f x = b).map g).sum := by
      intro b
      by_cases hb : f a = b
      · rw [List.filter_cons_of_pos (by simp [hb]), if_pos hb.symm]
        simp
      · rw [List.filter_cons_of_neg (by simp [hb]), if_neg fun hbe => hb hbe.symm]
        simp
    by_cases hmem : f a ∈ t.map f
    · rw [show (a :: t).map f = f a :: t.map f from rfl, List.dedup_cons_of_mem hmem]
      simp only [hfib]
      rw [sum_map_add_single _ (List.nodup_dedup _) (f a) (List.mem_dedup.mpr hmem), ih]
      simp
    · rw [show (a :: t).map f = f a :: t.map f from rfl, List.dedup_cons_of_not_mem hmem]
      simp only [List.map_cons, List.sum_cons, hfib]
      have ht : (t.filter fun x => f x = f a) = [] := by
        rw [List.filter_eq_nil_iff]
        intro x hx hfx
        exact hmem (List.mem_map.mpr ⟨x, hx, by simpa using hfx⟩)
      have hothers : ((t.map f).dedup.map fun b =>
          (if b = f a then g a else 0) + ((t.filter fun x => f x = b).map g).sum).sum
          = ((t.map f).dedup.map fun b => ((t.filter fun x => f x = b).map g).sum).sum := by
        apply congrArg
        apply List.map_congr_left
        intro b hb
        rw [if_neg, zero_add]
        intro hbe
        exact hmem (by rw [← hbe]; exact List.mem_dedup.mp hb)
      rw [hothers, ih, ht]
      simp

/-! ## Shared aggregation facts -/

/-- The occurrence counts of the species distribution add up to the
number of records. -/
theorem species_counts_sum (l : List TreeRecord) :
    ((get_species_distribution l).map fun p => p.2).sum = l.length := by
  unfold get_species_distribution
  have hp := List.perm_insertionSort byCountDesc
    ((distinctNames l).map fun n => (n, nameCount l n))
  rw [(hp.map fun p : String × Nat => p.2).sum_eq, List.map_map]
  show (((commonNames l).dedup).map fun n => (commonNames l).count n).sum = l.length
  rw [List.sum_map_count_dedup_eq_length]
  simp [commonNames]

/-! ## The individual verification results -/

/-- C1 counterexample: a two-row collection whose second row has no
carbon_seq field.  get_statistics does not fail with any
malformed-record error: it succeeds, counts both rows in total_trees,
and silently drops the deficient row from the carbon sum (10, not 10
plus a second contribution). -/
theorem c1_counterexample :
    rawGet_statistics [rawOak, rawNoCarbon] = Except.ok
      { total_trees := 2, total_carbon := 10, total_oxygen := 0,
        avg_height := some 9, avg_width := some (3 / 2),
        total_locations := 1, total_species := 2,
        most_common_species := "Oak", most_carbon_efficient := "Oak" } := by
  decide

/-- C1 amended: a record missing the carbon_seq field is silently
skipped by the carbon aggregation (its cell is NaN and the sum runs
with skipna=True) while still being counted in the record count; no
MalformedRecord failure exists in the code. -/
theorem c1_missing_field_skipped (l : List RawRecord) (r : RawRecord)
    (h : r.carbon_seq = none) :
    rawTotalCarbon (l ++ [r]) = rawTotalCarbon l ∧ (l ++ [r]).length = l.length + 1 := by
  constructor
  · unfold rawTotalCarbon optSum
    rw [List.map_append, List.filterMap_append]
    simp [h]
  · simp

/-- Witness for c1_missing_field_skipped at a concrete pair of rows. -/
theorem c1_missing_field_skipped_witness :
    rawTotalCarbon ([rawOak] ++ [rawNoCarbon]) = rawTotalCarbon [rawOak] ∧
      ([rawOak] ++ [rawNoCarbon]).length = [rawOak].length + 1 :=
  c1_missing_field_skipped [rawOak] rawNoCarbon rfl

/-- C2: when the location filter matches zero records, the handler
raises HTTPException(404, "No data found"), but the surrounding blanket
except-handler catches it (HTTPException is an Exception) and re-raises
it as a 500 whose detail merely quotes the 404.  The caller therefore
sees an internal-server-error condition, not the not-found condition the
code intended; no document is produced or stored. -/
theorem c2_empty_fetch_surfaces_500 (location now upload_url : String) :
    generate_report [] location now upload_url =
      Except.error (PyErr.httpException 500 "404: No data found") := rfl

/-- C3 counterexample: a Statistical View with three records but empty
species-distribution and carbon-by-species maps.  The Assembler does
not fail with any InconsistentView error: it produces a document. -/
theorem c3_counterexample :
    0 < (get_statistics treesC5).total_trees ∧
      (generate_pdf_report (get_statistics treesC5) [] [] (some "Central Park")
        "June 01, 2024 at 12:00").isOk = true := by
  decide

/-- C3 amended: generate_pdf_report performs no consistency check.  On
empty species-distribution and carbon-by-species maps it always
succeeds, whatever the record count of the view says, and renders the
two top-5 tables empty. -/
theorem c3_no_consistency_check (stats : Stats) (location : Option String) (now : String) :
    (generate_pdf_report stats [] [] location now).isOk = true ∧
      (generate_pdf_report stats [] [] location now).map
        (fun d => (d.species_table, d.carbon_table)) = Except.ok ([], []) :=
  ⟨rfl, rfl⟩

/-- C5: on the worked three-record example (two oaks with carbon 10 and
20, one pine with carbon 5) the Aggregator reports 3 trees, total
carbon 35, Oak as the most common species, Oak as the carbon-efficiency
leader (mean 15 against 5), and the distribution Oak 2, Pine 1. -/
theorem c5_worked_example :
    (get_statistics treesC5).total_trees = 3 ∧
      (get_statistics treesC5).total_carbon = 35 ∧
      (get_statistics treesC5).most_common_species = "Oak" ∧
      (get_statistics treesC5).most_carbon_efficient = "Oak" ∧
      get_species_distribution treesC5 = [("Oak", 2), ("Pine", 1)] := by
  decide

/-- C6 counterexample: on the empty collection get_species_distribution
returns no map at all.  pd.DataFrame([]) has no columns, so indexing
the common_name column raises KeyError; the operation therefore cannot
satisfy the claimed sum identity at the empty input the claim calls
out. -/
theorem c6_counterexample :
    rawGet_species_distribution [] = Except.error (PyErr.keyError "common_name") := rfl

/-- C6 amended: for every non-empty record collection the occurrence
counts of the species distribution sum to the number of records; on the
empty collection the operation raises KeyError instead of returning a
map. -/
theorem c6_distribution_counts_sum (l : List TreeRecord) (_hne : l ≠ []) :
    ((get_species_distribution l).map fun p => p.2).sum = l.length :=
  species_counts_sum l

/-- Witness for c6_distribution_counts_sum on the worked example. -/
theorem c6_distribution_counts_sum_witness :
    treesC5 ≠ [] ∧
      ((get_species_distribution treesC5).map fun p => p.2).sum = treesC5.length :=
  ⟨List.cons_ne_nil _ _, c6_distribution_counts_sum treesC5 (List.cons_ne_nil _ _)⟩

/-- C7: for every non-empty record collection, the per-species carbon
totals sum to the total_carbon of the Statistical View; over exact
rationals the identity is exact. -/
theorem c7_carbon_by_species_total (l : List TreeRecord) (_hne : l ≠ []) :
    ((get_carbon_by_species l).map fun p => p.2).sum = (get_statistics l).total_carbon := by
  unfold get_carbon_by_species get_statistics sortedNames
  have hp := List.perm_insertionSort leRel (distinctNames l)
  rw [List.map_map, ((hp.map ((fun p : String × ℚ => p.2) ∘ fun n => (n, sumCarbon l n)))).sum_eq]
  show ((distinctNames l).map fun n => sumCarbon l n).sum = (l.map fun r => r.carbon_seq).sum
  exact sum_dedup_fiber (fun r : TreeRecord => r.common_name) (fun r => r.carbon_seq) l

/-- Witness for c7_carbon_by_species_total on the worked example. -/
theorem c7_carbon_by_species_total_witness :
    treesC5 ≠ [] ∧
      ((get_carbon_by_species treesC5).map fun p => p.2).sum
        = (get_statistics treesC5).total_carbon :=
  ⟨List.cons_ne_nil _ _, c7_carbon_by_species_total treesC5 (List.cons_ne_nil _ _)⟩

/-- C4 counterexample: on a three-record view the document advertises
int(3 * 0.2) = 0 additional trees, while the claimed formula
round(3 * 0.2) gives 1. -/
theorem c4_counterexample :
    (generate_pdf_report (get_statistics treesC5) (get_species_distribution treesC5)
        (get_carbon_by_species treesC5) (some "Central Park") "t").map
      (fun d => d.recommendations.additional_trees) = Except.ok 0 ∧
      pyRound (((get_statistics treesC5).total_trees : ℚ) * 0.2) = 1 := by
  decide

/-- C4 amended: whenever the Assembler produces a document, the
recommendations carry exactly the diversity qualifier (excellent above
10 species, good above 5, otherwise needs improvement), a projected
additional-tree count equal to the truncation int(total_trees * 0.2),
and a projected additional sequestration of total_carbon * 0.2 rendered
to 2 decimal places. -/
theorem c4_recommendation_values (stats : Stats) (dist : List (String × Nat))
    (cd : List (String × ℚ)) (location : Option String) (now : String)
    (h : (generate_pdf_report stats dist cd location now).isOk = true) :
    (generate_pdf_report stats dist cd location now).map
      (fun d => (d.recommendations.diversity_qualifier,
        d.recommendations.additional_trees, d.recommendations.additional_carbon))
    = Except.ok
        ((if 10 < stats.total_species then "excellent"
          else if 5 < stats.total_species then "good" else "needs improvement"),
         pyTrunc ((stats.total_trees : ℚ) * 0.2),
         fmtF 2 (stats.total_carbon * 0.2)) := by
  unfold generate_pdf_report at h ⊢
  cases hrows : speciesRows stats.total_trees (top5_species dist) with
  | error e =>
    simp only [hrows] at h
    exact Bool.noConfusion h
  | ok rows =>
    simp only [hrows]
    rfl

/-- Witness for c4_recommendation_values on the worked example. -/
theorem c4_recommendation_values_witness :
    (generate_pdf_report (get_statistics treesC5) (get_species_distribution treesC5)
        (get_carbon_by_species treesC5) (some "Central Park") "t").isOk = true ∧
      (generate_pdf_report (get_statistics treesC5) (get_species_distribution treesC5)
          (get_carbon_by_species treesC5) (some "Central Park") "t").map
        (fun d => (d.recommendations.diversity_qualifier,
          d.recommendations.additional_trees, d.recommendations.additional_carbon))
      = Except.ok
          ((if 10 < (get_statistics treesC5).total_species then "excellent"
            else if 5 < (get_statistics treesC5).total_species then "good"
            else "needs improvement"),
           pyTrunc (((get_statistics treesC5).total_trees : ℚ) * 0.2),
           fmtF 2 ((get_statistics treesC5).total_carbon * 0.2)) :=
  ⟨by decide,
   c4_recommendation_values (get_statistics treesC5) (get_species_distribution treesC5)
     (get_carbon_by_species treesC5) (some "Central Park") "t" (by decide)⟩

/-- C8: both top-5 tables are sorted descending by their ranking key,
and every entry cut away by the [:5] slice has a key below every entry
kept. -/
theorem c8_top5_sorted_complete (species_dist : List (String × Nat))
    (carbon_data : List (String × ℚ)) :
    List.Sorted byCountDesc (top5_species species_dist) ∧
      List.Sorted byCarbonDesc (top5_carbon carbon_data) ∧
      (∀ e ∈ (List.insertionSort byCountDesc species_dist).drop 5,
        ∀ i ∈ top5_species species_dist, e.2 ≤ i.2) ∧
      (∀ e ∈ (List.insertionSort byCarbonDesc carbon_data).drop 5,
        ∀ i ∈ top5_carbon carbon_data, e.2 ≤ i.2) := by
  have hs1 := List.sorted_insertionSort byCountDesc species_dist
  have hs2 := List.sorted_insertionSort byCarbonDesc carbon_data
  have hcross1 : List.Pairwise byCountDesc
      ((List.insertionSort byCountDesc species_dist).take 5 ++
        (List.insertionSort byCountDesc species_dist).drop 5) := by
    rw [List.take_append_drop]
    exact hs1
  have hcross2 : List.Pairwise byCarbonDesc
      ((List.insertionSort byCarbonDesc carbon_data).take 5 ++
        (List.insertionSort byCarbonDesc carbon_data).drop 5) := by
    rw [List.take_append_drop]
    exact hs2
  refine ⟨hs1.sublist (List.take_sublist 5 _), hs2.sublist (List.take_sublist 5 _), ?_, ?_⟩
  · intro e he i hi
    exact (List.pairwise_append.mp hcross1).2.2 i hi e he
  · intro e he i hi
    exact (List.pairwise_append.mp hcross2).2.2 i hi e he

/-- Witness for c8_top5_sorted_complete on six-entry inputs, where the
slice cuts the entry of key 1 and keeps the entry of key 9. -/
theorem c8_top5_sorted_complete_witness :
    List.Sorted byCountDesc (top5_species distW) ∧
      (("A", 1) : String × Nat).2 ≤ (("D", 9) : String × Nat).2 ∧
      (("A", (1 : ℚ)) : String × ℚ).2 ≤ (("D", (9 : ℚ)) : String × ℚ).2 :=
  ⟨(c8_top5_sorted_complete distW carbW).1,
   (c8_top5_sorted_complete distW carbW).2.2.1 ("A", 1) (by decide) ("D", 9) (by decide),
   (c8_top5_sorted_complete distW carbW).2.2.2 ("A", (1 : ℚ)) (by decide)
     ("D", (9 : ℚ)) (by decide)⟩

/-- Pulling a constant factor out of a list sum of rationals. -/
theorem sum_map_mul_right_q {α : Type} (xs : List α) (f : α → ℚ) (k : ℚ) :
    (xs.map fun x => f x * k).sum = (xs.map f).sum * k := by
  induction xs with
  | nil => simp
  | cons a t ih => simp [ih, add_mul]

/-- A list sum of casts of naturals is the cast of the sum. -/
theorem sum_map_cast_q {α : Type} (xs : List α) (f : α → ℕ) :
    (xs.map fun x => ((f x : ℕ) : ℚ)).sum = (((xs.map f).sum : ℕ) : ℚ) := by
  induction xs with
  | nil => simp
  | cons a t ih => simp [ih]

/-- C9 counterexample: six species of one tree each.  Each rendered
percentage is 16.7, and the rendered percentage column of the full
distribution sums to 100.2, exceeding 100. -/
theorem c9_counterexample :
    ¬ (((get_species_distribution sixTrees).map fun p =>
          round1 ((100 : ℚ) * (p.2 : ℚ) / ((get_statistics sixTrees).total_trees : ℚ))).sum
        ≤ 100) := by
  decide

/-- C9 amended: every rendered row percentage equals
100 * count / total_trees formatted with .1f, and the exact (unrounded)
percentages over the full distribution sum to exactly 100, hence to at
most 100; the rounding of the rendering is what can push the displayed
column past 100. -/
theorem c9_percentages :
    (∀ l : List TreeRecord, l ≠ [] →
      ((get_species_distribution l).map fun p =>
        (100 : ℚ) * (p.2 : ℚ) / (l.length : ℚ)).sum = 100) ∧
    (∀ (t : Nat) (p : String × Nat) (row : String × String × String),
      speciesRow t p = Except.ok row →
      row.2.2 = fmtF 1 ((100 : ℚ) * (p.2 : ℚ) / (t : ℚ)) ++ "%") := by
  constructor
  · intro l hne
    have hlen : ((l.length : ℕ) : ℚ) ≠ 0 :=
      Nat.cast_ne_zero.mpr (Nat.pos_iff_ne_zero.mp (List.length_pos.mpr hne))
    have hfun : ∀ p : String × Nat, (100 : ℚ) * (p.2 : ℚ) / (l.length : ℚ)
        = (p.2 : ℚ) * (100 / (l.length : ℚ)) := fun p => by ring
    simp only [hfun]
    rw [sum_map_mul_right_q _ (fun p : String × Nat => (p.2 : ℚ)) (100 / (l.length : ℚ)),
      sum_map_cast_q _ (fun p : String × Nat => p.2), species_counts_sum l]
    field_simp
  · intro t p row h
    unfold speciesRow at h
    by_cases ht : t = 0
    · rw [if_pos ht] at h
      cases h
    · rw [if_neg ht] at h
      injection h with h2
      subst h2
      show fmtF 1 (((p.2 : ℚ) / (t : ℚ)) * 100) ++ "%"
          = fmtF 1 ((100 : ℚ) * (p.2 : ℚ) / (t : ℚ)) ++ "%"
      rw [show ((p.2 : ℚ) / (t : ℚ)) * 100 = (100 : ℚ) * (p.2 : ℚ) / (t : ℚ) from by ring]

/-- Witness for c9_percentages: the worked example sums to exactly 100,
and the Oak row of a three-tree table renders 66.7 percent. -/
theorem c9_percentages_witness :
    treesC5 ≠ [] ∧
      ((get_species_distribution treesC5).map fun p =>
        (100 : ℚ) * (p.2 : ℚ) / (treesC5.length : ℚ)).sum = 100 ∧
      speciesRow 3 ("Oak", 2) = Except.ok ("Oak", "2", "66.7%") ∧
      ("Oak", "2", "66.7%").2.2 = fmtF 1 ((100 : ℚ) * ((2 : ℕ) : ℚ) / ((3 : ℕ) : ℚ)) ++ "%" :=
  ⟨List.cons_ne_nil _ _,
   c9_percentages.1 treesC5 (List.cons_ne_nil _ _),
   by decide,
   c9_percentages.2 3 ("Oak", 2) ("Oak", "2", "66.7%") (by decide)⟩

/-- C10: the two tie-break policies of get_statistics are deterministic
and fully characterised.  most_common_species is a distinct common name
of maximal occurrence count and, among names tying for that count, the
least in code-point order (pandas mode returns its values sorted).
most_carbon_efficient is a distinct common name of maximal mean carbon
and, among names tying for that mean, the least in the sorted key order
of the grouping (idxmax takes the first maximal entry of the key-sorted
series).  Both functions are pure, so two runs on the same input agree
definitionally. -/
theorem c10_deterministic_tie_breaks (l : List TreeRecord) (hne : l ≠ []) :
    ((get_statistics l).most_common_species ∈ distinctNames l ∧
      (∀ n ∈ distinctNames l,
        nameCount l n ≤ nameCount l (get_statistics l).most_common_species) ∧
      (∀ n ∈ distinctNames l,
        nameCount l n = nameCount l (get_statistics l).most_common_species →
          leRel (get_statistics l).most_common_species n)) ∧
    ((get_statistics l).most_carbon_efficient ∈ distinctNames l ∧
      (∀ n ∈ distinctNames l,
        meanCarbon l n ≤ meanCarbon l (get_statistics l).most_carbon_efficient) ∧
      (∀ n ∈ distinctNames l,
        meanCarbon l n = meanCarbon l (get_statistics l).most_carbon_efficient →
          leRel (get_statistics l).most_carbon_efficient n)) := by
  constructor
  · -- the mode
    have hnames : commonNames l ≠ [] := by simpa [commonNames] using hne
    have hmcs : (get_statistics l).most_common_species
        = (sortedModes (commonNames l)).headD "" := by
      show most_common_species l = _
      unfold most_common_species
      rw [if_pos (List.length_pos.mpr hne)]
    obtain ⟨hm1, hm2, hm3⟩ := sortedModes_spec (commonNames l) hnames
    rw [hmcs]
    refine ⟨hm1, ?_, ?_⟩
    · intro n hn
      show countOcc (commonNames l) n
          ≤ countOcc (commonNames l) ((sortedModes (commonNames l)).headD "")
      rw [hm2]
      exact le_foldr_max _ _ (List.mem_map.mpr ⟨n, hn, rfl⟩)
    · intro n hn heq
      refine hm3 n hn ?_
      calc countOcc (commonNames l) n
          = countOcc (commonNames l) ((sortedModes (commonNames l)).headD "") := heq
        _ = maxOcc (commonNames l) := hm2
  · -- the carbon-efficiency leader
    have hdist : distinctNames l ≠ [] := by
      simpa [distinctNames, List.dedup_eq_nil, commonNames] using hne
    have hperm := List.perm_insertionSort leRel (distinctNames l)
    have hsorted := List.sorted_insertionSort leRel (distinctNames l)
    have hsn2 : sortedNames l ≠ [] := by
      intro h0
      rw [show sortedNames l = List.insertionSort leRel (distinctNames l) from rfl] at h0
      rw [h0] at hperm
      exact hdist hperm.symm.eq_nil
    cases hk : sortedNames l with
    | nil => exact absurd hk hsn2
    | cons k ks =>
      have hsorted2 : List.Pairwise leRel (k :: ks) := by
        rw [← hk]
        exact hsorted
      have hpw : List.Pairwise (fun x y : String × ℚ => leRel x.1 y.1)
          ((k, meanCarbon l k) :: (ks.map fun n => (n, meanCarbon l n))) := by
        show List.Pairwise (fun x y : String × ℚ => leRel x.1 y.1)
          ((k :: ks).map fun n => (n, meanCarbon l n))
        exact List.pairwise_map.mpr hsorted2
      obtain ⟨hfm, hfb, hft⟩ :=
        foldl_idxmax_spec (ks.map fun n => (n, meanCarbon l n)) (k, meanCarbon l k) hpw
      set F := (ks.map fun n => (n, meanCarbon l n)).foldl
        (fun best q => if best.2 < q.2 then q else best) (k, meanCarbon l k) with hF
      have hmce : (get_statistics l).most_carbon_efficient = F.1 := by
        show most_carbon_efficient l = F.1
        unfold most_carbon_efficient
        rw [show species_carbon l = (k, meanCarbon l k) ::
            (ks.map fun n => (n, meanCarbon l n)) from by
          unfold species_carbon
          rw [hk]
          rfl]
        rfl
      have hmempairs : F ∈ (k :: ks).map fun n => (n, meanCarbon l n) := hfm
      obtain ⟨n0, hn0, hFn0⟩ := List.mem_map.mp hmempairs
      have hmemdist : ∀ n, n ∈ k :: ks → n ∈ distinctNames l := by
        intro n hn
        refine hperm.mem_iff.mp ?_
        rw [show List.insertionSort leRel (distinctNames l) = sortedNames l from rfl, hk]
        exact hn
      have hdistmem : ∀ n, n ∈ distinctNames l → n ∈ k :: ks := by
        intro n hn
        have := hperm.mem_iff.mpr hn
        rw [show List.insertionSort leRel (distinctNames l) = sortedNames l from rfl, hk] at this
        exact this
      have hpairmem : ∀ n, n ∈ distinctNames l →
          (n, meanCarbon l n) ∈ (k, meanCarbon l k) :: (ks.map fun m => (m, meanCarbon l m)) := by
        intro n hn
        show (n, meanCarbon l n) ∈ (k :: ks).map fun m => (m, meanCarbon l m)
        exact List.mem_map.mpr ⟨n, hdistmem n hn, rfl⟩
      have hF2 : F.2 = meanCarbon l F.1 := by
        rw [← hFn0]
      rw [hmce]
      refine ⟨?_, ?_, ?_⟩
      · rw [show F.1 = n0 from by rw [← hFn0]]
        exact hmemdist n0 hn0
      · intro n hn
        have hb := hfb (n, meanCarbon l n) (hpairmem n hn)
        rw [hF2] at hb
        exact hb
      · intro n hn heq
        refine hft (n, meanCarbon l n) (hpairmem n hn) ?_
        rw [hF2]
        exact heq

/-- Witness for c10_deterministic_tie_breaks on the worked example. -/
theorem c10_deterministic_tie_breaks_witness :
    treesC5 ≠ [] ∧
      (get_statistics treesC5).most_common_species ∈ distinctNames treesC5 ∧
      meanCarbon treesC5 "Pine" ≤ meanCarbon treesC5 (get_statistics treesC5).most_carbon_efficient ∧
      leRel (get_statistics treesC5).most_carbon_efficient "Oak" :=
  ⟨List.cons_ne_nil _ _,
   (c10_deterministic_tie_breaks treesC5 (List.cons_ne_nil _ _)).1.1,
   (c10_deterministic_tie_breaks treesC5 (List.cons_ne_nil _ _)).2.2.1 "Pine" (by decide),
   (c10_deterministic_tie_breaks treesC5 (List.cons_ne_nil _ _)).2.2.2 "Oak"
     (by decide) (by decide)⟩
